import Mathlib

set_option maxRecDepth 100000

/-!
# Verification of the `connections` OpenAI client core

Shallow embedding of `src/openai_api.js` (class `OpenAIClient`): the cost
calculator `calculateCost`, the response-normalization logic inside
`callOpenAIAPI`, and the empty/blank-content error branch of the executor.

JavaScript numbers are modelled as exact rationals extended with a `nan`
element (`JsNum`); catalog price fields, which in JS may be a number,
`null`, or absent (`undefined`), are modelled by `JsVal`.  Strings are Lean
`String`s, JSON parsing (`JSON.parse`) is modelled by an executable
recursive-descent parser over the JSON grammar, and the greedy regex
`/\{[\s\S]*\}/` is modelled by `extractSpan`.
-/

attribute [local semireducible] Rat.ofScientific Rat.mul Rat.inv Rat.add

/-- A JavaScript number: either an exact rational or `NaN`.
(The source only ever produces `NaN` through arithmetic on `undefined`.) -/
inductive JsNum where
  | nan : JsNum
  | num : ℚ → JsNum
deriving DecidableEq, Repr

namespace JsNum

/-- JS `*` on numbers: `NaN` propagates (note `0 * NaN = NaN` in JS). -/
def mul : JsNum → JsNum → JsNum
  | num a, num b => num (a * b)
  | _, _ => nan

/-- JS `+` on numbers: `NaN` propagates. -/
def add : JsNum → JsNum → JsNum
  | num a, num b => num (a + b)
  | _, _ => nan

end JsNum

/-- Value of a catalog price field as read from a JS object property:
absent property (`undefined`), explicit `null`, or a number. -/
inductive JsVal where
  | undef : JsVal
  | null : JsVal
  | num : ℚ → JsVal
deriving DecidableEq, Repr

/-- Numeric coercion applied by JS arithmetic: `undefined → NaN`,
`null → 0`, a number to itself. -/
def JsVal.toNum : JsVal → JsNum
  | .undef => .nan
  | .null => .num 0
  | .num q => .num q

/-- A usage record from the API response; each token field may be absent. -/
structure Usage where
  prompt_tokens : Option ℕ
  completion_tokens : Option ℕ
  total_tokens : Option ℕ
deriving DecidableEq, Repr

/-- One entry of the loaded `model_prices.json` catalog: the two fields
`calculateCost` reads, each possibly `null` or absent. -/
structure CatalogEntry where
  input_cost_per_token : JsVal
  output_cost_per_token : JsVal
deriving DecidableEq, Repr

/-- The catalog as a JS object: association list keyed by model id.
`this.modelPrices` itself may be `null` (never loaded), hence the outer
`Option` at use sites. -/
abbrev Catalog := List (String × CatalogEntry)

/-- The return value of `calculateCost` (lines 248–255 of
`src/openai_api.js`). `elapsedMs`/`elapsedSeconds` are attached later by
the executor and are wall-clock measurements outside the embedding. -/
structure CostBreakdown where
  inputCost : JsNum
  outputCost : JsNum
  totalCost : JsNum
  promptTokens : ℕ
  completionTokens : ℕ
  totalTokens : ℕ
deriving DecidableEq, Repr

/-- The hardcoded fallback pricing table (per million tokens), in its
declaration order (lines 206–217). -/
def fallbackPricing : List (String × ℚ × ℚ) :=
  [ ("gpt-4o", 2.50, 10.00)
  , ("gpt-4o-mini", 0.15, 0.60)
  , ("gpt-4-turbo", 10.00, 30.00)
  , ("gpt-4", 30.00, 60.00)
  , ("default", 5.00, 15.00) ]

/-- Exact-key lookup in a JS object literal (association list). -/
def assocLookup {α : Type} (l : List (String × α)) (k : String) : Option α :=
  match l with
  | [] => none
  | (k', v) :: rest => if k' = k then some v else assocLookup rest k

/-- `needle.isPrefixOf hay` or the needle occurs somewhere later:
model of JS `hay.includes(needle)` on char lists. -/
def listIncludes (hay needle : List Char) : Bool :=
  needle.isPrefixOf hay ||
    match hay with
    | [] => false
    | _ :: t => listIncludes t needle

/-- Model of `modelLower.includes(key.toLowerCase())`. -/
def strIncludes (hay needle : String) : Bool :=
  listIncludes hay.toList needle.toList

/-- Model of JS `toLowerCase()` (ASCII case mapping suffices for the
model ids and table keys involved). -/
def jsToLower (s : String) : String :=
  String.mk (s.toList.map Char.toLower)

/-- Lines 220–236: resolve the per-million price pair from the fallback
table: exact key lookup, then the first key (in declaration order) that is
a case-insensitive substring of the model id, then the `default` entry. -/
def resolveFallback (model : String) : ℚ × ℚ :=
  match assocLookup fallbackPricing model with
  | some p => p
  | none =>
    match fallbackPricing.find?
        (fun kv => strIncludes (jsToLower model) (jsToLower kv.1)) with
    | some kv => kv.2
    | none => (assocLookup fallbackPricing "default").getD (0, 0)

/-- `calculateCost(model, usage)` (lines 186–256).  `modelPrices` is the
client's catalog state (`none` = `this.modelPrices === null`).

* `usage.prompt_tokens || 0` / `usage.completion_tokens || 0`: an absent
  field counts as `0` (and a present `0` stays `0`), hence `getD 0`.
* Catalog lookup leaves the two per-token prices `null` unless the model
  has an entry, in which case the two properties are read as-is (an absent
  property reads as `undefined`, not `null`).
* The fallback block is entered iff either price `=== null`.
* `usage.total_tokens || (promptTokens + completionTokens)`: a present but
  zero `total_tokens` is falsy in JS and falls through to the sum. -/
def calculateCost (modelPrices : Option Catalog) (model : String)
    (usage : Usage) : CostBreakdown :=
  let promptTokens : ℕ := usage.prompt_tokens.getD 0
  let completionTokens : ℕ := usage.completion_tokens.getD 0
  let loaded : JsVal × JsVal :=
    match modelPrices with
    | some catalog =>
      match assocLookup catalog model with
      | some entry => (entry.input_cost_per_token, entry.output_cost_per_token)
      | none => (JsVal.null, JsVal.null)
    | none => (JsVal.null, JsVal.null)
  let prices : JsNum × JsNum :=
    if loaded.1 = JsVal.null ∨ loaded.2 = JsVal.null then
      let fp := resolveFallback model
      (JsNum.num (fp.1 / 1000000), JsNum.num (fp.2 / 1000000))
    else
      (loaded.1.toNum, loaded.2.toNum)
  let inputCost := JsNum.mul (JsNum.num promptTokens) prices.1
  let outputCost := JsNum.mul (JsNum.num completionTokens) prices.2
  let totalCost := JsNum.add inputCost outputCost
  { inputCost := inputCost
  , outputCost := outputCost
  , totalCost := totalCost
  , promptTokens := promptTokens
  , completionTokens := completionTokens
  , totalTokens :=
      match usage.total_tokens with
      | some t => if t = 0 then promptTokens + completionTokens else t
      | none => promptTokens + completionTokens }

/-- The per-token price pair resolved by `calculateCost` (its `prices`
intermediate): catalog values unless either loaded field is `null`, in
which case the fallback table is consulted. -/
def resolvedPrices (modelPrices : Option Catalog) (model : String) :
    JsNum × JsNum :=
  let loaded : JsVal × JsVal :=
    match modelPrices with
    | some catalog =>
      match assocLookup catalog model with
      | some entry => (entry.input_cost_per_token, entry.output_cost_per_token)
      | none => (JsVal.null, JsVal.null)
    | none => (JsVal.null, JsVal.null)
  if loaded.1 = JsVal.null ∨ loaded.2 = JsVal.null then
    let fp := resolveFallback model
    (JsNum.num (fp.1 / 1000000), JsNum.num (fp.2 / 1000000))
  else
    (loaded.1.toNum, loaded.2.toNum)

/-! ## Response normalization (lines 146–158 of `callOpenAIAPI`)

The raw completion text is searched with the greedy regex `/\{[\s\S]*\}/`
(first `{` through the last `}` of the text); the span, when present, is
fed to `JSON.parse`; any failure falls back to a text-response object. -/

/-- Index of the first character satisfying `p`. -/
def firstIdx (p : Char → Bool) : List Char → Option ℕ
  | [] => none
  | c :: cs => if p c then some 0 else (firstIdx p cs).map (· + 1)

/-- Model of `content.match(/\{[\s\S]*\}/)` on a char list: the span from
the first `{` to the last `}`, provided the latter lies strictly after the
former; `none` when the regex does not match. -/
def extractSpanL (cs : List Char) : Option (List Char) :=
  match firstIdx (fun c => c = '{') cs with
  | none => none
  | some i =>
    match firstIdx (fun c => c = '}') cs.reverse with
    | none => none
    | some r =>
      let j := cs.length - 1 - r
      if i < j then some ((cs.drop i).take (j - i + 1)) else none

/-- The candidate JSON span of the raw completion text. -/
def extractSpan (s : String) : Option String :=
  (extractSpanL s.toList).map String.mk

/-- A JSON value as produced by `JSON.parse` (numbers kept exact). -/
inductive JsonVal where
  | null : JsonVal
  | bool : Bool → JsonVal
  | num : ℚ → JsonVal
  | str : String → JsonVal
  | arr : List JsonVal → JsonVal
  | obj : List (String × JsonVal) → JsonVal

/-- The four JSON whitespace characters. -/
def isJsonWs (c : Char) : Bool :=
  c = ' ' || c = '\t' || c = '\n' || c = '\r'

/-- Drop leading JSON whitespace. -/
def skipWs : List Char → List Char
  | [] => []
  | c :: cs => if isJsonWs c then skipWs cs else c :: cs

/-- Value of a hex digit, if any. -/
def hexVal (c : Char) : Option ℕ :=
  if '0' ≤ c ∧ c ≤ '9' then some (c.toNat - '0'.toNat)
  else if 'a' ≤ c ∧ c ≤ 'f' then some (c.toNat - 'a'.toNat + 10)
  else if 'A' ≤ c ∧ c ≤ 'F' then some (c.toNat - 'A'.toNat + 10)
  else none

/-- Body of a JSON string after the opening quote: returns the decoded
characters and the input after the closing quote.  Raw control characters
are invalid; the JSON escapes are decoded. -/
def parseStringBody : List Char → Option (List Char × List Char)
  | [] => none
  | '"' :: cs => some ([], cs)
  | '\\' :: '"' :: cs => (parseStringBody cs).map (fun p => ('"' :: p.1, p.2))
  | '\\' :: '\\' :: cs => (parseStringBody cs).map (fun p => ('\\' :: p.1, p.2))
  | '\\' :: '/' :: cs => (parseStringBody cs).map (fun p => ('/' :: p.1, p.2))
  | '\\' :: 'b' :: cs =>
    (parseStringBody cs).map (fun p => (Char.ofNat 8 :: p.1, p.2))
  | '\\' :: 'f' :: cs =>
    (parseStringBody cs).map (fun p => (Char.ofNat 12 :: p.1, p.2))
  | '\\' :: 'n' :: cs => (parseStringBody cs).map (fun p => ('\n' :: p.1, p.2))
  | '\\' :: 'r' :: cs => (parseStringBody cs).map (fun p => ('\r' :: p.1, p.2))
  | '\\' :: 't' :: cs => (parseStringBody cs).map (fun p => ('\t' :: p.1, p.2))
  | '\\' :: 'u' :: a :: b :: c :: d :: cs =>
    (match hexVal a, hexVal b, hexVal c, hexVal d with
     | some ha, some hb, some hc, some hd =>
       (parseStringBody cs).map
         (fun p => (Char.ofNat (((ha * 16 + hb) * 16 + hc) * 16 + hd) :: p.1, p.2))
     | _, _, _, _ => none)
  | '\\' :: _ => none
  | c :: cs =>
    if c.toNat < 32 then none
    else (parseStringBody cs).map (fun p => (c :: p.1, p.2))

/-- Numeric value of a decimal digit. -/
def digitVal (c : Char) : ℕ := c.toNat - '0'.toNat

/-- Decimal digits to a natural number. -/
def digitsToNat (ds : List Char) : ℕ :=
  ds.foldl (fun acc c => acc * 10 + digitVal c) 0

/-- Split a leading run of decimal digits. -/
def parseDigits (cs : List Char) : List Char × List Char :=
  (cs.takeWhile Char.isDigit, cs.dropWhile Char.isDigit)

/-- A JSON number per the grammar `-? int frac? exp?` (no leading zeros,
a fraction or exponent must have at least one digit). -/
def parseNumber (cs : List Char) : Option (ℚ × List Char) :=
  let signSplit : Bool × List Char :=
    match cs with
    | '-' :: t => (true, t)
    | _ => (false, cs)
  let intSplit := parseDigits signSplit.2
  if intSplit.1.isEmpty then none
  else if intSplit.1.length > 1 ∧ intSplit.1.head? = some '0' then none
  else
    let intPart : ℚ := (digitsToNat intSplit.1 : ℕ)
    let fracRes : Option (ℚ × List Char) :=
      match intSplit.2 with
      | '.' :: t =>
        let fracSplit := parseDigits t
        if fracSplit.1.isEmpty then none
        else some (intPart + (digitsToNat fracSplit.1 : ℚ) /
                     ((10 : ℚ) ^ fracSplit.1.length), fracSplit.2)
      | r => some (intPart, r)
    match fracRes with
    | none => none
    | some (mant, rest) =>
      let expRes : Option (ℚ × List Char) :=
        match rest with
        | e :: t =>
          if e = 'e' ∨ e = 'E' then
            let expSign : Bool × List Char :=
              match t with
              | '+' :: u => (false, u)
              | '-' :: u => (true, u)
              | _ => (false, t)
            let expSplit := parseDigits expSign.2
            if expSplit.1.isEmpty then none
            else
              let ev := digitsToNat expSplit.1
              some (if expSign.1 then mant / (10 : ℚ) ^ ev
                    else mant * (10 : ℚ) ^ ev, expSplit.2)
          else some (mant, rest)
        | [] => some (mant, rest)
      match expRes with
      | none => none
      | some (v, r) => some (if signSplit.1 then -v else v, r)

mutual

/-- One JSON value (fuel-indexed recursive descent; the fuel only bounds
recursion depth and is chosen large enough at the entry point). -/
def parseValue : ℕ → List Char → Option (JsonVal × List Char)
  | 0, _ => none
  | fuel + 1, cs =>
    match skipWs cs with
    | 'n' :: 'u' :: 'l' :: 'l' :: rest => some (.null, rest)
    | 't' :: 'r' :: 'u' :: 'e' :: rest => some (.bool true, rest)
    | 'f' :: 'a' :: 'l' :: 's' :: 'e' :: rest => some (.bool false, rest)
    | '"' :: rest =>
      (parseStringBody rest).map (fun p => (.str (String.mk p.1), p.2))
    | '[' :: rest =>
      (match skipWs rest with
       | ']' :: r => some (.arr [], r)
       | r => (parseItems fuel r).map (fun p => (.arr p.1, p.2)))
    | '{' :: rest =>
      (match skipWs rest with
       | '}' :: r => some (.obj [], r)
       | r => (parseFields fuel r).map (fun p => (.obj p.1, p.2)))
    | rest => (parseNumber rest).map (fun p => (.num p.1, p.2))

/-- Comma-separated items of a non-empty array, up to `]`. -/
def parseItems : ℕ → List Char → Option (List JsonVal × List Char)
  | 0, _ => none
  | fuel + 1, cs =>
    match parseValue fuel cs with
    | none => none
    | some (v, rest) =>
      match skipWs rest with
      | ',' :: r => (parseItems fuel r).map (fun p => (v :: p.1, p.2))
      | ']' :: r => some ([v], r)
      | _ => none

/-- Comma-separated `"key": value` fields of a non-empty object, up
to `}`. -/
def parseFields : ℕ → List Char → Option (List (String × JsonVal) × List Char)
  | 0, _ => none
  | fuel + 1, cs =>
    match skipWs cs with
    | '"' :: rest =>
      (match parseStringBody rest with
       | none => none
       | some (key, rest₁) =>
         match skipWs rest₁ with
         | ':' :: rest₂ =>
           (match parseValue fuel rest₂ with
            | none => none
            | some (v, rest₃) =>
              match skipWs rest₃ with
              | ',' :: r =>
                (parseFields fuel r).map
                  (fun p => ((String.mk key, v) :: p.1, p.2))
              | '}' :: r => some ([(String.mk key, v)], r)
              | _ => none)
         | _ => none)
    | _ => none

end

/-- Model of `JSON.parse`: parse one value and require that only
whitespace remains. -/
def jsonParse (s : String) : Option JsonVal :=
  let cs := s.toList
  match parseValue (2 * cs.length + 2) cs with
  | some (v, rest) => if skipWs rest = [] then some v else none
  | none => none

/-- The result object built by lines 146–158: either the parsed JSON
object or `\x7b textResponse: content \x7d`. -/
inductive SolutionResult where
  | grouped : JsonVal → SolutionResult
  | textFallback : String → SolutionResult

/-- The parsed candidate span, if the regex matched and `JSON.parse`
succeeded. -/
def parsedSpan (content : String) : Option JsonVal :=
  match extractSpan content with
  | some span => jsonParse span
  | none => none

/-- Lines 146–158: extract the greedy brace span and try to parse it;
on no span or a parse error, fall back to the text-response object. -/
def normalizeResponse (content : String) : SolutionResult :=
  match extractSpan content with
  | none => .textFallback content
  | some span =>
    match jsonParse span with
    | some v => .grouped v
    | none => .textFallback content

/-- JS property lookup on a parsed JSON object (a duplicated key denotes
its last value). -/
def getField (v : JsonVal) (key : String) : Option JsonVal :=
  match v with
  | .obj fields => (fields.reverse.find? (fun kv => kv.1 = key)).map (·.2)
  | _ => none

/-- The elements of a JSON array. -/
def asArr : JsonVal → Option (List JsonVal)
  | .arr l => some l
  | _ => none

/-- The `groups` array of a parsed solution, if of that shape. -/
def groupsOf (v : JsonVal) : Option (List JsonVal) :=
  (getField v "groups").bind asArr

/-- Number of entries of one group's `words` array. -/
def wordsCount (g : JsonVal) : ℕ :=
  match (getField g "words").bind asArr with
  | some ws => ws.length
  | none => 0

/-- Total word count across all groups. -/
def totalWordCount (v : JsonVal) : ℕ :=
  match groupsOf v with
  | some gs => (gs.map wordsCount).sum
  | none => 0

/-- Whether the result is the parsed-JSON (grouped) variant. -/
def SolutionResult.isGrouped : SolutionResult → Bool
  | .grouped _ => true
  | .textFallback _ => false

/-- Length of the `groups` array of a grouped result, when present. -/
def SolutionResult.groupsLength : SolutionResult → Option ℕ
  | .grouped v => (groupsOf v).map List.length
  | .textFallback _ => none

/-- Total word count of a grouped result. -/
def SolutionResult.totalWords : SolutionResult → Option ℕ
  | .grouped v => some (totalWordCount v)
  | .textFallback _ => none

/-! ## The executor's post-response handling (lines 133–177) -/

/-- The failure conditions thrown by `callOpenAIAPI` when the extracted
completion content is empty or blank (lines 137–144). -/
inductive ApiError where
  | truncatedResponse : ApiError
  | emptyResponse : String → ApiError
deriving DecidableEq, Repr

/-- The result object assembled by `callOpenAIAPI` (lines 146–177): the
normalized solution plus usage, cost and metadata.  The wall-clock
`elapsedMs`/`elapsedSeconds` fields are outside the embedding. -/
structure ApiResult where
  solution : SolutionResult
  usage : Option Usage
  cost : Option CostBreakdown
  model : String
  finishReason : String

/-- JS blank test `!content || content.trim() === ''`: every character of
the content is whitespace (the empty string included).  The whitespace set
covers what `String.prototype.trim` removes on the ASCII range plus the
common Unicode members (NBSP, LS, PS, BOM). -/
def isBlank (content : String) : Bool :=
  content.toList.all fun c =>
    isJsonWs c || c.toNat = 11 || c.toNat = 12 || c.toNat = 160 ||
      c.toNat = 0x2028 || c.toNat = 0x2029 || c.toNat = 0xFEFF

/-- Lines 133–177 of `callOpenAIAPI`, from the parsed HTTP response
onward: blank content fails with the truncated/empty condition (and
neither normalization nor cost calculation runs); otherwise the content is
normalized and, when a usage record is present, costed. -/
def processResponse (modelPrices : Option Catalog) (model : String)
    (content : String) (finishReason : String) (usage : Option Usage) :
    Except ApiError ApiResult :=
  if isBlank content then
    if finishReason = "length" then .error .truncatedResponse
    else .error (.emptyResponse finishReason)
  else
    .ok { solution := normalizeResponse content
        , usage := usage
        , cost := usage.map (calculateCost modelPrices model)
        , model := model
        , finishReason := finishReason }

/-! ## Concrete response texts used in the claims -/

/-- A well-formed grouping JSON object: 4 groups of 4 words each. -/
def groupedJson : String :=
  "\x7b\n  \"groups\": [\n" ++
  "    \x7b\"theme\": \"Colors\", \"words\": [\"RED\", \"BLUE\", \"GREEN\", " ++
  "\"PINK\"], \"explanation\": \"They are colors\"\x7d,\n" ++
  "    \x7b\"theme\": \"Pets\", \"words\": [\"CAT\", \"DOG\", \"FISH\", " ++
  "\"BIRD\"], \"explanation\": \"Common pets\"\x7d,\n" ++
  "    \x7b\"theme\": \"Metals\", \"words\": [\"GOLD\", \"IRON\", \"LEAD\", " ++
  "\"ZINC\"], \"explanation\": \"They are metals\"\x7d,\n" ++
  "    \x7b\"theme\": \"Planets\", \"words\": [\"MARS\", \"VENUS\", " ++
  "\"EARTH\", \"SATURN\"], \"explanation\": \"Planets\"\x7d\n" ++
  "  ]\n\x7d"

/-- The grouping object embedded in surrounding prose (no other braces). -/
def roundTripText : String :=
  "Here is the solution to the Connections puzzle.\n" ++ groupedJson ++
  "\nGood luck!"

/-- A completion whose brace span is not valid JSON (truncated array). -/
def truncatedText : String :=
  "Result: \x7b\"groups\": [\"A\", \"B\"\x7d"

/-! ## Binary64 (JS number) arithmetic

JS numbers are IEEE-754 binary64.  For most of the claims the exact
rational model above is conclusion-equivalent (price selection, NaN
propagation, `0 * finite`, the structural total, and integer token
counts are rounding-independent), but an exact-decimal-equality claim
about a rounded computation needs the real float semantics.  The
following model rounds a non-negative rational in the normal finite
range to 53 significant bits, to nearest, ties to even — exactly the
binary64 rounding of every value arising in the pricing arithmetic. -/

/-- Fuelled floor of the base-2 logarithm. -/
def log2Fuel : ℕ → ℕ → ℕ
  | 0, _ => 0
  | fuel + 1, n => if n ≤ 1 then 0 else log2Fuel fuel (n / 2) + 1

/-- Floor of the base-2 logarithm of a positive natural. -/
def natLog2 (n : ℕ) : ℕ := log2Fuel n n

/-- The rational `2 ^ e` for an integer exponent. -/
def pow2z (e : ℤ) : ℚ :=
  match e with
  | .ofNat n => ((2 ^ n : ℕ) : ℚ)
  | .negSucc n => 1 / ((2 ^ (n + 1) : ℕ) : ℚ)

/-- Floor of a rational as an integer. -/
def qFloor (q : ℚ) : ℤ := Int.ediv q.num q.den

/-- Round a rational to the nearest integer, ties to even. -/
def roundNearestEven (q : ℚ) : ℤ :=
  let f := qFloor q
  if 2 * q < 2 * (f : ℚ) + 1 then f
  else if 2 * (f : ℚ) + 1 < 2 * q then f + 1
  else if f % 2 = 0 then f else f + 1

/-- Floor of the base-2 logarithm of a positive rational. -/
def qFloorLog2 (q : ℚ) : ℤ :=
  let e0 : ℤ := (natLog2 q.num.toNat : ℤ) - (natLog2 q.den : ℤ)
  if pow2z (e0 + 1) ≤ q then e0 + 1
  else if pow2z e0 ≤ q then e0
  else e0 - 1

/-- Binary64 round-to-nearest (ties to even) of a non-negative rational
in the normal finite range: the unbounded-exponent significand is
rounded to 53 bits.  (Subnormals, overflow and negatives do not arise in
the pricing arithmetic of the claims.) -/
def fp64Round (q : ℚ) : ℚ :=
  if q = 0 then 0
  else
    let e := qFloorLog2 q
    (roundNearestEven (q / pow2z (e - 52)) : ℚ) * pow2z (e - 52)

/-- Binary64 addition: exact sum, then one rounding. -/
def fpAdd (a b : ℚ) : ℚ := fp64Round (a + b)

/-- Binary64 multiplication: exact product, then one rounding. -/
def fpMul (a b : ℚ) : ℚ := fp64Round (a * b)

/-- Binary64 division: exact quotient, then one rounding. -/
def fpDiv (a b : ℚ) : ℚ := fp64Round (a / b)

/-- The fallback-path cost computation of `calculateCost` (lines
239–246) under the program's binary64 semantics: the per-million price
is divided by 1,000,000 and multiplied by the token count, with IEEE
rounding after each operation, and the total is the rounded sum.  The
inputs involved (the table's `default` prices 5.00 and 15.00, the
divisor and the token counts) are all exactly representable, so the
model is bit-exact for the scenario of the claim. -/
def fp64FallbackCosts (model : String)
    (promptTokens completionTokens : ℕ) : ℚ × ℚ × ℚ :=
  let fp := resolveFallback model
  let inputCostPerToken := fpDiv fp.1 1000000
  let outputCostPerToken := fpDiv fp.2 1000000
  let inputCost := fpMul (promptTokens : ℚ) inputCostPerToken
  let outputCost := fpMul (completionTokens : ℚ) outputCostPerToken
  (inputCost, outputCost, fpAdd inputCost outputCost)

/-! ## Helper lemmas -/

/-- With no catalog loaded the two `=== null` tests succeed, so the
fallback path prices the call; each field of the breakdown evaluates
accordingly. -/
theorem calculateCost_none_eval (model : String) (usage : Usage) :
    calculateCost none model usage =
      { inputCost := JsNum.num ((usage.prompt_tokens.getD 0 : ℚ) *
            ((resolveFallback model).1 / 1000000))
      , outputCost := JsNum.num ((usage.completion_tokens.getD 0 : ℚ) *
            ((resolveFallback model).2 / 1000000))
      , totalCost := JsNum.num ((usage.prompt_tokens.getD 0 : ℚ) *
            ((resolveFallback model).1 / 1000000) +
          (usage.completion_tokens.getD 0 : ℚ) *
            ((resolveFallback model).2 / 1000000))
      , promptTokens := usage.prompt_tokens.getD 0
      , completionTokens := usage.completion_tokens.getD 0
      , totalTokens :=
          match usage.total_tokens with
          | some t =>
            if t = 0 then usage.prompt_tokens.getD 0 +
              usage.completion_tokens.getD 0 else t
          | none => usage.prompt_tokens.getD 0 +
              usage.completion_tokens.getD 0 } := rfl

/-- Multiplying the JS number `0` by anything gives `0` or `NaN`
(the latter exactly when the other factor is `NaN`). -/
theorem JsNum.zero_mul_cases (x : JsNum) :
    JsNum.mul (JsNum.num 0) x = JsNum.num 0 ∨
      JsNum.mul (JsNum.num 0) x = JsNum.nan := by
  cases x with
  | nan => exact Or.inr rfl
  | num q => exact Or.inl (by simp [JsNum.mul])

/-! ## Claim theorems -/

/-- Claim C6 (confirmed): for every catalog state, model id and usage
record, the breakdown's `totalCost` is literally the sum of its
`inputCost` and `outputCost` — the same summation, with no intermediate
rounding (`totalCost = inputCost + outputCost` on line 246 of the
source). -/
theorem totalCost_is_sum (modelPrices : Option Catalog) (model : String)
    (usage : Usage) :
    (calculateCost modelPrices model usage).totalCost =
      JsNum.add (calculateCost modelPrices model usage).inputCost
        (calculateCost modelPrices model usage).outputCost := rfl

/-- Claim C4 (confirmed): with no catalog loaded, `gpt-4o` with usage
1000/500/1500 costs exactly 0.0025 + 0.005 = 0.0075 via the built-in
2.50/10.00 per-million prices. -/
theorem calculateCost_gpt4o_scenario :
    calculateCost none "gpt-4o" ⟨some 1000, some 500, some 1500⟩ =
      ⟨JsNum.num 0.0025, JsNum.num 0.005, JsNum.num 0.0075,
       1000, 500, 1500⟩ := by decide

/-- Claim C5 counterexample: in the program's binary64 arithmetic the
scenario's output cost is `500 * (15.00/1e6) = 0.007500000000000001`
(the double `8646911284551353 * 2 ^ (-60)`), one ulp ABOVE the double
denoted by `0.0075` — so the claimed exact `outputCost = 0.0075` is
false of the code. -/
theorem unknown_model_scenario_cex :
    (fp64FallbackCosts "unknown-model-xyz" 1000 500).2.1 =
      8646911284551353 / 2 ^ 60 ∧
    fp64Round 0.0075 = 8646911284551352 / 2 ^ 60 ∧
    (fp64FallbackCosts "unknown-model-xyz" 1000 500).2.1 ≠ fp64Round 0.0075 ∧
    (fp64FallbackCosts "unknown-model-xyz" 1000 500).2.1 =
      fp64Round 0.0075 + 1 / 2 ^ 60 := by
  refine ⟨by decide, by decide, by decide, by decide⟩

/-- Claim C5 (amended): `unknown-model-xyz` has neither an exact nor a
substring match and resolves to the `default` entry (5.00/15.00 per
million).  Under the program's binary64 arithmetic the scenario returns
`inputCost` equal to the double `0.005` and `totalCost` equal to the
double `0.0125` exactly, but `outputCost` is the double one ulp above
`0.0075`.  (In exact rational arithmetic all three decimal values hold,
as the rational-model conjunct states.) -/
theorem calculateCost_unknown_model_amended :
    resolveFallback "unknown-model-xyz" = (5.00, 15.00) ∧
    (fp64FallbackCosts "unknown-model-xyz" 1000 500).1 = fp64Round 0.005 ∧
    (fp64FallbackCosts "unknown-model-xyz" 1000 500).2.1 =
      fp64Round 0.0075 + 1 / 2 ^ 60 ∧
    (fp64FallbackCosts "unknown-model-xyz" 1000 500).2.2 = fp64Round 0.0125 ∧
    calculateCost none "unknown-model-xyz" ⟨some 1000, some 500, some 1500⟩ =
      ⟨JsNum.num 0.005, JsNum.num 0.0075, JsNum.num 0.0125,
       1000, 500, 1500⟩ := by
  refine ⟨by decide, by decide, by decide, by decide, by decide⟩

/-- Claim C2 (confirmed): when the fallback table is consulted and the
model id has no exact entry, the keys are scanned in declaration order and
`gpt-4o`, being first, captures every id whose lowercase contains
`"gpt-4o"` — in particular ids containing `"gpt-4o-mini"` — yielding the
2.50/10.00 per-million prices. -/
theorem fallback_substring_prefers_gpt4o (model : String) (usage : Usage)
    (hexact : assocLookup fallbackPricing model = none)
    (hsub : strIncludes (jsToLower model) "gpt-4o" = true) :
    resolveFallback model = (2.50, 10.00) ∧
    (calculateCost none model usage).inputCost =
      JsNum.num ((usage.prompt_tokens.getD 0 : ℚ) * (2.50 / 1000000)) ∧
    (calculateCost none model usage).outputCost =
      JsNum.num ((usage.completion_tokens.getD 0 : ℚ) * (10.00 / 1000000)) := by
  have hres : resolveFallback model = (2.50, 10.00) := by
    unfold resolveFallback
    rw [hexact]
    rw [show fallbackPricing =
      ("gpt-4o", 2.50, 10.00) ::
        [ ("gpt-4o-mini", 0.15, 0.60), ("gpt-4-turbo", 10.00, 30.00),
          ("gpt-4", 30.00, 60.00), ("default", 5.00, 15.00) ] from rfl]
    rw [List.find?_cons_of_pos]
    show strIncludes (jsToLower model) (jsToLower "gpt-4o") = true
    rw [show jsToLower "gpt-4o" = "gpt-4o" from by decide]
    exact hsub
  refine ⟨hres, ?_, ?_⟩ <;>
    rw [calculateCost_none_eval, hres]

/-- Witness for C2 at the id `openai/gpt-4o-mini`: no exact fallback-table
entry, lowercase contains `gpt-4o`, so the `gpt-4o` prices apply even
though the id contains `gpt-4o-mini`. -/
theorem fallback_substring_prefers_gpt4o_witness :
    resolveFallback "openai/gpt-4o-mini" = (2.50, 10.00) ∧
    (calculateCost none "openai/gpt-4o-mini" ⟨some 7, some 3, none⟩).inputCost =
      JsNum.num (((⟨some 7, some 3, none⟩ : Usage).prompt_tokens.getD 0 : ℚ) *
        (2.50 / 1000000)) ∧
    (calculateCost none "openai/gpt-4o-mini" ⟨some 7, some 3, none⟩).outputCost =
      JsNum.num (((⟨some 7, some 3, none⟩ : Usage).completion_tokens.getD 0 : ℚ) *
        (10.00 / 1000000)) :=
  fallback_substring_prefers_gpt4o "openai/gpt-4o-mini" ⟨some 7, some 3, none⟩
    (by decide) (by decide)

/-- Claim C1 counterexample: a catalog entry whose `input_cost_per_token`
field is absent (so the property reads as `undefined`, not `null`) does
NOT fall back — the `=== null` test on line 201 misses it — and the
undefined price is multiplied into a `NaN` input cost instead of the
fallback-table price that an absent-catalog call would produce. -/
theorem catalog_missing_field_cex :
    (calculateCost (some [("my-model", ⟨JsVal.undef, JsVal.num (3/1000000)⟩)])
        "my-model" ⟨some 1000, some 500, some 1500⟩).inputCost = JsNum.nan ∧
    (calculateCost none "my-model"
        ⟨some 1000, some 500, some 1500⟩).inputCost = JsNum.num 0.005 ∧
    JsNum.nan ≠ JsNum.num 0.005 := by
  refine ⟨by decide, by decide, by decide⟩

/-- Claim C1 (amended): for a model with a catalog entry, the fallback
table is used exactly when either loaded field is `null`; whenever neither
field is `null` — including the case of a field that is merely absent,
which reads as `undefined` — the catalog values are used as-is, an
undefined price producing `NaN` costs rather than a fallback price. -/
theorem catalog_entry_pricing (cat : Catalog) (model : String)
    (usage : Usage) (entry : CatalogEntry)
    (hlook : assocLookup cat model = some entry) :
    (entry.input_cost_per_token = JsVal.null ∨
        entry.output_cost_per_token = JsVal.null →
      calculateCost (some cat) model usage = calculateCost none model usage) ∧
    (entry.input_cost_per_token ≠ JsVal.null →
      entry.output_cost_per_token ≠ JsVal.null →
      (calculateCost (some cat) model usage).inputCost =
        JsNum.mul (JsNum.num (usage.prompt_tokens.getD 0))
          entry.input_cost_per_token.toNum ∧
      (calculateCost (some cat) model usage).outputCost =
        JsNum.mul (JsNum.num (usage.completion_tokens.getD 0))
          entry.output_cost_per_token.toNum) := by
  constructor
  · intro hnull
    rw [calculateCost_none_eval]
    simp only [calculateCost, hlook]
    rw [if_pos hnull]
    rfl
  · intro hin hout
    simp only [calculateCost, hlook]
    rw [if_neg (by tauto)]
    exact ⟨rfl, rfl⟩

/-- Witness for the amended C1: a well-formed catalog entry for `m`
prices the call directly from the catalog. -/
theorem catalog_entry_pricing_witness :
    (calculateCost (some [("m", ⟨JsVal.num (2/1000000), JsVal.num (4/1000000)⟩)])
        "m" ⟨some 10, some 20, none⟩).inputCost =
      JsNum.mul (JsNum.num (((⟨some 10, some 20, none⟩ : Usage)).prompt_tokens.getD 0))
        (JsVal.num (2/1000000)).toNum ∧
    (calculateCost (some [("m", ⟨JsVal.num (2/1000000), JsVal.num (4/1000000)⟩)])
        "m" ⟨some 10, some 20, none⟩).outputCost =
      JsNum.mul (JsNum.num (((⟨some 10, some 20, none⟩ : Usage)).completion_tokens.getD 0))
        (JsVal.num (4/1000000)).toNum :=
  (catalog_entry_pricing [("m", ⟨JsVal.num (2/1000000), JsVal.num (4/1000000)⟩)]
      "m" ⟨some 10, some 20, none⟩ ⟨JsVal.num (2/1000000), JsVal.num (4/1000000)⟩
      rfl).2 (by decide) (by decide)

/-- Claim C3 counterexample: with `total_tokens` present but equal to 0
(and nonzero prompt/completion counts), the breakdown's `totalTokens` is
the sum 3, not the present value 0 — `usage.total_tokens || (p + c)`
treats a present 0 as falsy. -/
theorem totalTokens_present_zero_cex :
    (calculateCost none "gpt-4o" ⟨some 1, some 2, some 0⟩).totalTokens = 3 ∧
    (3 : ℕ) ≠ 0 := by decide

/-- Claim C3 (amended): `totalTokens` equals the usage record's
`total_tokens` when that field is present AND non-zero (truthy), and
equals `promptTokens + completionTokens` when the field is absent or
zero. -/
theorem totalTokens_rule (modelPrices : Option Catalog) (model : String)
    (usage : Usage) :
    (∀ t, usage.total_tokens = some t → t ≠ 0 →
      (calculateCost modelPrices model usage).totalTokens = t) ∧
    (usage.total_tokens = none ∨ usage.total_tokens = some 0 →
      (calculateCost modelPrices model usage).totalTokens =
        usage.prompt_tokens.getD 0 + usage.completion_tokens.getD 0) := by
  constructor
  · intro t ht hne
    simp [calculateCost, ht, hne]
  · rintro (h | h) <;> simp [calculateCost, h]

/-- Witness for the amended C3: a present non-zero `total_tokens` is
passed through. -/
theorem totalTokens_rule_witness :
    (calculateCost none "m" ⟨some 5, some 7, some 99⟩).totalTokens = 99 :=
  (totalTokens_rule none "m" ⟨some 5, some 7, some 99⟩).1 99 rfl (by decide)

/-- Claim C10 counterexample: with a catalog entry whose input price field
is absent, a usage record missing `prompt_tokens` still gets
`promptTokens = 0`, but its `inputCost` is `NaN` (JS `0 * undefined`),
not 0. -/
theorem missing_tokens_cost_cex :
    (calculateCost (some [("m", ⟨JsVal.undef, JsVal.num 1⟩)]) "m"
        ⟨none, some 5, none⟩).promptTokens = 0 ∧
    (calculateCost (some [("m", ⟨JsVal.undef, JsVal.num 1⟩)]) "m"
        ⟨none, some 5, none⟩).inputCost = JsNum.nan ∧
    JsNum.nan ≠ JsNum.num 0 := by
  refine ⟨by decide, by decide, by decide⟩

/-- Claim C10 (amended): a missing (or zero) token field is treated as 0,
the corresponding token field of the breakdown is 0 and the call returns a
breakdown for every catalog state; the corresponding cost field is either
exactly 0 or `NaN`, and always 0 when no catalog is loaded (the `NaN`
case needs a partial catalog entry, as in the counterexample). -/
theorem missing_token_fields_safe (modelPrices : Option Catalog)
    (model : String) (usage : Usage) :
    ((usage.prompt_tokens = none ∨ usage.prompt_tokens = some 0) →
      (calculateCost modelPrices model usage).promptTokens = 0 ∧
      ((calculateCost modelPrices model usage).inputCost = JsNum.num 0 ∨
        (calculateCost modelPrices model usage).inputCost = JsNum.nan) ∧
      (calculateCost none model usage).inputCost = JsNum.num 0) ∧
    ((usage.completion_tokens = none ∨ usage.completion_tokens = some 0) →
      (calculateCost modelPrices model usage).completionTokens = 0 ∧
      ((calculateCost modelPrices model usage).outputCost = JsNum.num 0 ∨
        (calculateCost modelPrices model usage).outputCost = JsNum.nan) ∧
      (calculateCost none model usage).outputCost = JsNum.num 0) := by
  constructor
  · intro hp
    have h0 : usage.prompt_tokens.getD 0 = 0 := by
      rcases hp with h | h <;> simp [h]
    refine ⟨?_, ?_, ?_⟩
    · simp [calculateCost, h0]
    · have heq : (calculateCost modelPrices model usage).inputCost =
          JsNum.mul (JsNum.num (usage.prompt_tokens.getD 0))
            (resolvedPrices modelPrices model).1 := rfl
      rw [heq, h0]
      exact_mod_cast JsNum.zero_mul_cases (resolvedPrices modelPrices model).1
    · rw [calculateCost_none_eval]
      simp [h0]
  · intro hc
    have h0 : usage.completion_tokens.getD 0 = 0 := by
      rcases hc with h | h <;> simp [h]
    refine ⟨?_, ?_, ?_⟩
    · simp [calculateCost, h0]
    · have heq : (calculateCost modelPrices model usage).outputCost =
          JsNum.mul (JsNum.num (usage.completion_tokens.getD 0))
            (resolvedPrices modelPrices model).2 := rfl
      rw [heq, h0]
      exact_mod_cast JsNum.zero_mul_cases (resolvedPrices modelPrices model).2
    · rw [calculateCost_none_eval]
      simp [h0]

/-- Witness for the amended C10: a usage record with no `prompt_tokens`
gets zero prompt tokens and zero input cost. -/
theorem missing_token_fields_safe_witness :
    (calculateCost none "m" ⟨none, some 5, none⟩).promptTokens = 0 ∧
    ((calculateCost none "m" ⟨none, some 5, none⟩).inputCost = JsNum.num 0 ∨
      (calculateCost none "m" ⟨none, some 5, none⟩).inputCost = JsNum.nan) ∧
    (calculateCost none "m" ⟨none, some 5, none⟩).inputCost = JsNum.num 0 :=
  (missing_token_fields_safe none "m" ⟨none, some 5, none⟩).1 (Or.inl rfl)

/-- Scanning a prefix with no hit shifts the first-index by the prefix
length. -/
theorem firstIdx_append (p : Char → Bool) (pre l : List Char)
    (h : ∀ c ∈ pre, p c = false) :
    firstIdx p (pre ++ l) = (firstIdx p l).map (· + pre.length) := by
  induction pre with
  | nil => cases hfi : firstIdx p l <;> simp [hfi]
  | cons c cs ih =>
    have hc : p c = false := h c (by simp)
    have ih' := ih (fun d hd => h d (by simp [hd]))
    simp only [List.cons_append, firstIdx, hc, Bool.false_eq_true, if_false,
      ih', List.length_cons]
    cases hfi : firstIdx p l <;> simp [ih', hfi, Nat.add_assoc]

/-- The first hit right after a miss-free prefix is at the prefix
length. -/
theorem firstIdx_boundary (p : Char → Bool) (pre l : List Char) (c : Char)
    (h : ∀ d ∈ pre, p d = false) (hc : p c = true) :
    firstIdx p (pre ++ c :: l) = some pre.length := by
  rw [firstIdx_append p pre _ h]
  simp [firstIdx, hc]

/-- Taking the length of the left part plus `n` takes all of the left
part and `n` of the right. -/
theorem take_length_add {α : Type} (a b : List α) (n : ℕ) :
    (a ++ b).take (a.length + n) = a ++ b.take n := by
  induction a with
  | nil => simp
  | cons x xs ih => simp [List.take, Nat.succ_add, ih]

/-- The greedy brace span of a text made of a brace-free prefix, an
opening brace, arbitrary middle characters, a closing brace and a
brace-free suffix is exactly the braced middle. -/
theorem extractSpanL_embed (pre mid suf : List Char)
    (hpre : '{' ∉ pre) (hsuf : '}' ∉ suf) :
    extractSpanL (pre ++ '{' :: (mid ++ '}' :: suf)) =
      some ('{' :: (mid ++ ['}'])) := by
  have hfirst : firstIdx (fun c => c = '{')
      (pre ++ '{' :: (mid ++ '}' :: suf)) = some pre.length :=
    firstIdx_boundary _ pre _ '{'
      (fun d hd => by
        simp only [decide_eq_false_iff_not]
        exact fun he => hpre (he ▸ hd))
      (by simp)
  have hrev : (pre ++ '{' :: (mid ++ '}' :: suf)).reverse =
      suf.reverse ++ '}' :: (mid.reverse ++ '{' :: pre.reverse) := by
    simp [List.reverse_append]
  have hlast : firstIdx (fun c => c = '}')
      (pre ++ '{' :: (mid ++ '}' :: suf)).reverse =
        some suf.reverse.length := by
    rw [hrev]
    exact firstIdx_boundary _ suf.reverse _ '}'
      (fun d hd => by
        simp only [decide_eq_false_iff_not]
        exact fun he => hsuf (he ▸ (List.mem_reverse.mp hd)))
      (by simp)
  have hlen : (pre ++ '{' :: (mid ++ '}' :: suf)).length =
      pre.length + mid.length + suf.length + 2 := by
    simp
    omega
  unfold extractSpanL
  rw [hfirst, hlast]
  simp only [hlen, List.length_reverse]
  have hj : pre.length + mid.length + suf.length + 2 - 1 - suf.length =
      pre.length + (mid.length + 1) := by omega
  rw [hj, if_pos (by omega)]
  have hdrop : (pre ++ '{' :: (mid ++ '}' :: suf)).drop pre.length =
      '{' :: (mid ++ '}' :: suf) := List.drop_left pre _
  rw [hdrop]
  have hidx : pre.length + (mid.length + 1) - pre.length + 1 =
      mid.length + 1 + 1 := by omega
  rw [hidx]
  have htake : ('{' :: (mid ++ '}' :: suf)).take (mid.length + 1 + 1) =
      '{' :: (mid ++ ['}']) := by
    have h3 := take_length_add ('{' :: mid) ('}' :: suf) 1
    simpa using h3
  rw [htake]

/-- Claim C7 (confirmed): the candidate JSON span is exactly the substring
from the first `{` to the last `}` (greedy, not balance-aware), and the
concrete grouping object of 4 groups × 4 words embedded in brace-free
prose normalizes to the grouped variant with 4 groups and 16 words. -/
theorem greedy_span_roundtrip :
    (∀ pre mid suf : List Char, '{' ∉ pre → '}' ∉ suf →
      extractSpanL (pre ++ '{' :: (mid ++ '}' :: suf)) =
        some ('{' :: (mid ++ ['}']))) ∧
    extractSpan roundTripText = some groupedJson ∧
    (normalizeResponse roundTripText).isGrouped = true ∧
    (normalizeResponse roundTripText).groupsLength = some 4 ∧
    (normalizeResponse roundTripText).totalWords = some 16 := by
  refine ⟨fun pre mid suf h1 h2 => extractSpanL_embed pre mid suf h1 h2,
    ?_, ?_, ?_, ?_⟩ <;> decide

/-- Witness for C7's universal part: the span runs from the first `{` to
the LAST `}` even across an interior `}` (greedy, not balanced). -/
theorem greedy_span_roundtrip_witness :
    extractSpanL ([' '] ++ '{' :: (['a', '}', 'b'] ++ '}' :: ['x'])) =
      some ('{' :: (['a', '}', 'b'] ++ ['}'])) :=
  greedy_span_roundtrip.1 [' '] ['a', '}', 'b'] ['x'] (by decide) (by decide)

/-- Claim C8 (confirmed): normalization is a total function; whenever no
brace span exists or the extracted span fails to parse as JSON, the
result is the text fallback carrying the raw text verbatim. -/
theorem normalize_fallback_on_failure (content : String)
    (h : parsedSpan content = none) :
    normalizeResponse content = .textFallback content := by
  unfold normalizeResponse
  unfold parsedSpan at h
  cases he : extractSpan content with
  | none => rfl
  | some span =>
    simp only [he] at h
    simp [h]

/-- Witness for C8: a braceless text and a text whose brace span is
truncated JSON both fall back to the verbatim text. -/
theorem normalize_fallback_on_failure_witness :
    normalizeResponse "I could not find the groups." =
      .textFallback "I could not find the groups." ∧
    normalizeResponse truncatedText = .textFallback truncatedText :=
  ⟨normalize_fallback_on_failure "I could not find the groups." rfl,
   normalize_fallback_on_failure truncatedText rfl⟩

/-- Claim C9 (confirmed): blank (or empty) extracted content makes the
executor fail — with the truncated-response condition exactly when the
finish reason is `"length"`, otherwise with the empty-response condition
carrying that finish reason — and the error carries no normalized
solution and no cost breakdown. -/
theorem blank_content_fails (modelPrices : Option Catalog) (model : String)
    (content finishReason : String) (usage : Option Usage)
    (h : isBlank content = true) :
    processResponse modelPrices model content finishReason usage =
      .error (if finishReason = "length" then ApiError.truncatedResponse
              else ApiError.emptyResponse finishReason) := by
  unfold processResponse
  rw [if_pos h]
  by_cases hf : finishReason = "length"
  · rw [if_pos hf, if_pos hf]
  · rw [if_neg hf, if_neg hf]

/-- Witness for C9: whitespace-only content with finish reason `stop`
gives the empty-response error; empty content with finish reason `length`
gives the truncated-response error. -/
theorem blank_content_fails_witness :
    processResponse none "gpt-4o" "   " "stop" none =
      .error (if ("stop" : String) = "length" then ApiError.truncatedResponse
              else ApiError.emptyResponse "stop") ∧
    processResponse none "gpt-4o" "" "length" none =
      .error (if ("length" : String) = "length" then ApiError.truncatedResponse
              else ApiError.emptyResponse "length") :=
  ⟨blank_content_fails none "gpt-4o" "   " "stop" none (by decide),
   blank_content_fails none "gpt-4o" "" "length" none rfl⟩
